import Mathlib

/-!
Shallow embedding of the session core of `src/server.js` (a voice-assistant
relay server).  JavaScript strings are modelled as Lean `String`
(a wrapper around `List Char`); JS string primitives (`trim`, `toLowerCase`,
`slice`, `includes`, the `/^\*\s*/` replace) are modelled data-wise below.
Numbers (`Date.now()`, lengths, cursors) are modelled as `Nat`.
-/

namespace VoiceAssistant

/-- Whitespace class used by JS `String.prototype.trim` and the regex `\s`
(ASCII part; the claims only exercise ASCII). -/
def jsIsWs (c : Char) : Bool :=
  c == ' ' || c == '\t' || c == '\n' || c == '\r' || c == '\x0b' || c == '\x0c'

/-- List-level model of JS `trim`: drop whitespace from both ends. -/
def trimL (l : List Char) : List Char :=
  (l.dropWhile jsIsWs).rdropWhile jsIsWs

/-- JS `s.trim()`. -/
def jsTrim (s : String) : String := ⟨trimL s.data⟩

/-- List-level model of JS `toLowerCase` (per-character lowering). -/
def lowerL (l : List Char) : List Char := l.map Char.toLower

/-- JS `s.toLowerCase()`. -/
def jsToLower (s : String) : String := ⟨lowerL s.data⟩

/-- List-level model of `str.replace(/^\*\s*/, '')`: if the string starts
with `'*'`, remove it together with the following whitespace run. -/
def stripBulletL : List Char → List Char
  | [] => []
  | c :: rest => if c = '*' then rest.dropWhile jsIsWs else c :: rest

/-- JS `s.slice(n)` for a non-negative index `n`. -/
def jsSlice (s : String) (n : Nat) : String := ⟨s.data.drop n⟩

/-- JS `s.slice(-n)`: the last `n` characters of `s`. -/
def jsSliceLast (s : String) (n : Nat) : String :=
  ⟨s.data.drop (s.data.length - n)⟩

/-- JS `s.length`. -/
def strLength (s : String) : Nat := s.data.length

/-- JS `hay.includes(needle)`: substring containment. -/
def jsIncludes (hay needle : String) : Bool :=
  decide (needle.data <:+: hay.data)

/-! ### Data model (`server.js` session closure) -/

/-- One template field as stored in `currentClientState.fields`
(`{id, name, hint, currentValue}`). -/
structure Field where
  id : String
  name : String
  hint : String
  currentValue : String
deriving DecidableEq

/-- Model of `currentClientState = { fields: [], userNotes: "" }`. -/
structure ClientState where
  fields : List Field
  userNotes : String
deriving DecidableEq

/-- The `action` enum of the generation schema (`UPDATE_SCHEMA`). -/
inductive UpdateAction where
  | APPEND
  | REPLACE
  | SKIP
deriving DecidableEq

/-- One proposed update from the generation response
(`{fieldId, action, value}`). -/
structure ExtractionUpdate where
  fieldId : String
  action : UpdateAction
  value : String
deriving DecidableEq

/-- Configuration passed to `deepgram.listen.live` in `setupDeepgram`. -/
structure DeepgramConfig where
  model : String
  language : String
  smart_format : Bool
  diarize : Bool
  encoding : String
  sample_rate : Nat
  interim_results : Bool
deriving DecidableEq

/-- The literal configuration object of `setupDeepgram` (server.js:286-294). -/
def deepgramLiveConfig : DeepgramConfig :=
  ⟨"nova-2", "en-US", true, true, "linear16", 16000, false⟩

/-- An upstream Deepgram connection: its configuration plus its (externally
determined) ready state (`getReadyState()`, 1 = OPEN). -/
structure DeepgramConnection where
  config : DeepgramConfig
  readyState : Nat
deriving DecidableEq

/-- The per-connection mutable state of the `wss.on('connection')` closure:
`dgConnection`, `activeTemplate`, `currentClientState`,
`slidingWindowTranscript`, `processedTranscriptLength`, `heartbeat`
(modelled as: interval timer exists), `connectionStartTime`, `isProcessing`. -/
structure SessionState where
  dgConnection : Option DeepgramConnection
  activeTemplate : List Field
  currentClientState : ClientState
  slidingWindowTranscript : String
  processedTranscriptLength : Nat
  heartbeat : Bool
  connectionStartTime : Nat
  isProcessing : Bool
deriving DecidableEq

/-! ### Merge engine (server.js:210-255) -/

/-- Model of `currentClientState.fields.find(f => f.id === update.fieldId)`. -/
def findField (fields : List Field) (fid : String) : Option Field :=
  fields.find? (fun f => f.id == fid)

/-- In-place mutation `field.currentValue = newValue` of the field object
returned by `find`: updates the first field with the given id. -/
def setFirstValue : List Field → String → String → List Field
  | [], _, _ => []
  | f :: rest, fid, v =>
    if f.id == fid then { f with currentValue := v } :: rest
    else f :: setFirstValue rest fid v

/-- The duplicate check of the APPEND branch (server.js:222-231):
`cleanExisting.includes(cleanNew.replace(/^\*\s*/, ''))` where
`cleanExisting = oldValue.toLowerCase().trim()` and
`cleanNew = update.value.trim().toLowerCase().trim()`. -/
def appendDupCheck (oldValue value : String) : Bool :=
  let cleanValue := jsTrim value
  let cleanExisting := jsTrim (jsToLower oldValue)
  let cleanNew := jsTrim (jsToLower cleanValue)
  decide (stripBulletL cleanNew.data <:+: cleanExisting.data)

/-- The per-update value computation of the merge loop
(server.js:221-249): `none` means the update was skipped early
(duplicate APPEND, or REPLACE equal to the current value); `some nv`
is the computed `newValue`. A SKIP action falls through both branches
leaving `newValue = oldValue`. -/
def mergeNewValue (oldValue : String) (action : UpdateAction) (value : String) :
    Option String :=
  match action with
  | UpdateAction.APPEND =>
    let cleanValue := jsTrim value
    if appendDupCheck oldValue value then none
    else some (if oldValue = "" then cleanValue else oldValue ++ "\n" ++ cleanValue)
  | UpdateAction.REPLACE =>
    if oldValue = jsTrim value then none else some (jsTrim value)
  | UpdateAction.SKIP => some oldValue

/-- One iteration of `updates.forEach` (server.js:210-255) over the pair
(current fields, `changesMade`). -/
def applyUpdate (acc : List Field × Bool) (u : ExtractionUpdate) :
    List Field × Bool :=
  match findField acc.1 u.fieldId with
  | none => acc
  | some field =>
    let oldValue := field.currentValue
    match mergeNewValue oldValue u.action u.value with
    | none => acc
    | some newValue =>
      if newValue = oldValue then acc
      else (setFirstValue acc.1 u.fieldId newValue, true)

/-- The result of one APPEND on a single field value: the stored value
after the merge step (unchanged when the duplicate check fires). -/
def appendOnce (oldValue value : String) : String :=
  match mergeNewValue oldValue UpdateAction.APPEND value with
  | none => oldValue
  | some v => v

/-! ### Outbound messages (`ws.send`) -/

/-- The JSON messages the session sends to the client. -/
inductive OutMsg where
  | status (active : Bool)
  | transcript (text : String) (isFinal : Bool)
  | templateUpdate (data : List (String × String))
  | error (message : String)
deriving DecidableEq

/-! ### Extraction scheduler: one heartbeat tick (server.js:71-282) -/

/-- Outcome of the parsing stage (server.js:176-196) when the `try` block
does not throw: `noResult` covers `!result || !result.updates`
(direct parse failed and the brace-extraction fallback found no match,
or the parsed object has no `updates`); `updates us` is a parsed update
list.  An exception anywhere in the `try` block (the `generateContent`
call itself, or `JSON.parse` on a matched-but-invalid brace extract)
is the separate `thrown` outcome. -/
inductive ParsedResult where
  | noResult
  | updates (us : List ExtractionUpdate)
deriving DecidableEq

/-- How the awaited generation call ends: with a thrown error
(caught by the `catch` block) or by completing with a parse outcome. -/
inductive GenOutcome where
  | thrown (message : String)
  | completed (r : ParsedResult)
deriving DecidableEq

/-- Template-availability guard (server.js:73-82): an empty
`activeTemplate` is recovered from `currentClientState.fields` when
possible; this mutation persists even when a later guard fails. -/
def recoverTemplate (s : SessionState) : SessionState :=
  if s.activeTemplate = [] ∧ s.currentClientState.fields ≠ [] then
    { s with activeTemplate := s.currentClientState.fields }
  else s

/-- The guard cascade of one tick (server.js:73-94).  Returns `none` when
the tick short-circuits without issuing a generation call, and
`some s2` — the session state at the moment the call is issued, with
`isProcessing` already set — when all guards pass. -/
def tickCallDecision (s : SessionState) : Option SessionState :=
  let s1 := recoverTemplate s
  if s1.activeTemplate = [] then none
  else
    let newContent := jsSlice s1.slidingWindowTranscript s1.processedTranscriptLength
    if strLength (jsTrim newContent) < 10 then none
    else if s1.isProcessing then none
    else some { s1 with isProcessing := true }

/-- The `flatUpdate` object (server.js:259-262): flat map of field id to value. -/
def flatUpdate (fields : List Field) : List (String × String) :=
  fields.map (fun f => (f.id, f.currentValue))

/-- The completion of an issued generation call (server.js:97-281),
starting from the state `s2` at call time and the messages already sent
(`msgs`, ending in the busy status).  `timedOut = true` models the 15 s
safety timeout (server.js:97-103) firing before the call resolves: its
handler finds `isProcessing` still set, force-clears it and emits an
idle status; the response handling then still runs when the call
eventually resolves.  The `finally` block (server.js:277-281) clears the
timeout, clears `isProcessing` and emits an idle status on every path. -/
def completionPhase (s2 : SessionState) (o : GenOutcome) (timedOut : Bool)
    (msgs : List OutMsg) : SessionState × List OutMsg × Bool :=
  let s3 := if timedOut then { s2 with isProcessing := false } else s2
  let msgsT := if timedOut then msgs ++ [OutMsg.status false] else msgs
  match o with
  | GenOutcome.thrown m =>
    ({ s3 with isProcessing := false },
     msgsT ++ [OutMsg.error m, OutMsg.status false], true)
  | GenOutcome.completed r =>
    let len := strLength s3.slidingWindowTranscript
    match r with
    | ParsedResult.noResult =>
      ({ s3 with processedTranscriptLength := len, isProcessing := false },
       msgsT ++ [OutMsg.status false], true)
    | ParsedResult.updates us =>
      let live := us.filter (fun u => !(u.action == UpdateAction.SKIP))
      if live = [] then
        ({ s3 with processedTranscriptLength := len, isProcessing := false },
         msgsT ++ [OutMsg.status false], true)
      else
        let applied := live.foldl applyUpdate (s3.currentClientState.fields, false)
        let upd := if applied.2 then [OutMsg.templateUpdate (flatUpdate applied.1)] else []
        ({ s3 with
             currentClientState := { s3.currentClientState with fields := applied.1 },
             processedTranscriptLength := len,
             isProcessing := false },
         msgsT ++ upd ++ [OutMsg.status false], true)

/-- One full heartbeat tick (the `setInterval` callback, server.js:71-282).
Returns the new session state, the messages sent to the client, and
whether a generation call was issued. -/
def heartbeatTick (s : SessionState) (o : GenOutcome) (timedOut : Bool) :
    SessionState × List OutMsg × Bool :=
  match tickCallDecision s with
  | none => (recoverTemplate s, [], false)
  | some s2 => completionPhase s2 o timedOut [OutMsg.status true]

/-! ### Transcript events (server.js:296-313, inside `setupDeepgram`) -/

/-- The `LiveTranscriptionEvents.Transcript` handler: on a non-empty final
result, label the text with the first word's speaker index, send it to
the client, append `" " + labeledText` to the sliding-window transcript,
and trim to the last 40 000 characters when the buffer exceeds 50 000,
clamping `processedTranscriptLength` to 40 000. -/
def handleTranscriptEvent (s : SessionState) (transcript : String)
    (is_final : Bool) (speaker : Nat) : SessionState × List OutMsg :=
  if transcript ≠ "" ∧ is_final then
    let labeledText := "[Speaker " ++ toString speaker ++ "] " ++ transcript
    let grown := s.slidingWindowTranscript ++ " " ++ labeledText
    if strLength grown > 50000 then
      ({ s with
           slidingWindowTranscript := jsSliceLast grown 40000,
           processedTranscriptLength :=
             if s.processedTranscriptLength > 40000 then 40000
             else s.processedTranscriptLength },
       [OutMsg.transcript labeledText true])
    else
      ({ s with slidingWindowTranscript := grown },
       [OutMsg.transcript labeledText true])
  else (s, [])

/-! ### Inbound text messages (server.js:320-368) -/

/-- The legacy `updateTemplate:<json>` message (server.js:329-339):
replace `activeTemplate`; if `currentClientState.fields` is empty, seed
it from the template with empty `currentValue`s. -/
def handleUpdateTemplate (s : SessionState) (tpl : List Field) : SessionState :=
  let s1 := { s with activeTemplate := tpl }
  if s1.currentClientState.fields = [] then
    { s1 with currentClientState :=
        { s1.currentClientState with
            fields := tpl.map (fun f => { f with currentValue := "" }) } }
  else s1

/-- Lexicographic order on character lists, modelling the default string
comparison of JS `Array.prototype.sort()` (code-unit-wise). -/
def lexLeChars : List Char → List Char → Bool
  | [], _ => true
  | _ :: _, [] => false
  | a :: as, b :: bs => if a = b then lexLeChars as bs else decide (a < b)

/-- JS `Array.prototype.sort()` with the default comparator on an array of
strings (insertion sort; the default comparator is a total preorder with
ties only between identical strings, so any sorting algorithm produces
the same list). -/
def insertSorted (x : String) : List String → List String
  | [] => [x]
  | y :: ys => if lexLeChars x.data y.data then x :: y :: ys else y :: insertSorted x ys

/-- Sorted copy of a list of strings, modelling `.sort()`. -/
def jsSortStrings : List String → List String
  | [] => []
  | x :: xs => insertSorted x (jsSortStrings xs)

/-- Model of `fields.map(f => f.id).sort().join(',')` (server.js:352-353). -/
def sortedIdsJoin (fields : List Field) : String :=
  String.intercalate "," (jsSortStrings (fields.map (fun f => f.id)))

/-- The `contextUpdate` message handler (server.js:343-363): replace
`currentClientState`; when the new field list is non-empty, reset
`processedTranscriptLength` to 0 if the sorted comma-joined id lists
differ, and adopt the new fields as `activeTemplate`. -/
def handleContextUpdate (s : SessionState) (fields : List Field)
    (userNotes : String) : SessionState :=
  let s1 := { s with currentClientState := ⟨fields, userNotes⟩ }
  if fields = [] then s1
  else
    let oldIds := sortedIdsJoin s.activeTemplate
    let newIds := sortedIdsJoin fields
    let s2 :=
      if oldIds ≠ newIds then { s1 with processedTranscriptLength := 0 } else s1
    { s2 with activeTemplate := fields }

/-! ### Inbound audio frames (server.js:371-391) -/

/-- Observable actions on the upstream Deepgram connection during one
audio-frame event, in order of occurrence. -/
inductive DeepgramAction where
  | finish
  | setup (cfg : DeepgramConfig)
  | sendAudio
deriving DecidableEq

/-- The binary branch of the `ws.on('message')` handler: if the session
age exceeds 55 minutes or there is no upstream connection, finish any
existing connection, run `setupDeepgram` (opening a connection with
`deepgramLiveConfig`; its ready state is externally determined), reset
`connectionStartTime`, and start the heartbeat — all before the frame
is forwarded; the frame is then forwarded iff the (possibly new)
connection's ready state is 1. -/
def handleAudioFrame (s : SessionState) (now : Nat) (newReadyState : Nat) :
    SessionState × List DeepgramAction :=
  if 55 * 60000 < now - s.connectionStartTime ∨ s.dgConnection = none then
    let closeActs : List DeepgramAction :=
      match s.dgConnection with
      | some _ => [DeepgramAction.finish]
      | none => []
    let conn : DeepgramConnection := ⟨deepgramLiveConfig, newReadyState⟩
    let s2 := { s with
        dgConnection := some conn,
        connectionStartTime := now,
        heartbeat := true }
    let fwd : List DeepgramAction :=
      if conn.readyState = 1 then [DeepgramAction.sendAudio] else []
    (s2, closeActs ++ DeepgramAction.setup deepgramLiveConfig :: fwd)
  else
    let fwd : List DeepgramAction :=
      match s.dgConnection with
      | some c => if c.readyState = 1 then [DeepgramAction.sendAudio] else []
      | none => []
    (s, fwd)

/-! ### Helper lemmas on the string models -/

/-- A character list with no whitespace at either end (the shape of any
`trim` output). -/
def WsTrimmed (t : List Char) : Prop :=
  ∀ h : t ≠ [], jsIsWs (t.head h) = false ∧ jsIsWs (t.getLast h) = false

theorem suffixWiden {α : Type} {l₁ l₂ : List α} (h : l₁ <:+ l₂) : l₁ <:+: l₂ :=
  List.IsSuffix.isInfix h

theorem trimL_suffix_widen (l : List Char) : trimL l <:+: l := by
  have h1 : trimL l <+: l.dropWhile jsIsWs := List.rdropWhile_prefix jsIsWs _
  have h2 : l.dropWhile jsIsWs <:+ l := List.dropWhile_suffix jsIsWs
  exact (List.IsPrefix.isInfix h1).trans (suffixWiden h2)

theorem trimL_trimmed (l : List Char) : WsTrimmed (trimL l) := by
  intro h
  constructor
  · have hp : trimL l <+: l.dropWhile jsIsWs := List.rdropWhile_prefix jsIsWs _
    rw [List.IsPrefix.head hp h]
    exact List.head_dropWhile_not jsIsWs l (List.IsPrefix.ne_nil hp h)
  · have := List.rdropWhile_last_not jsIsWs (l.dropWhile jsIsWs) h
    exact Bool.not_eq_true _ ▸ eq_false_of_ne_true this

theorem stripBulletL_suffix_self (l : List Char) : stripBulletL l <:+ l := by
  match l with
  | [] => exact List.suffix_refl []
  | c :: rest =>
    simp only [stripBulletL]
    by_cases hc : c = '*'
    · rw [if_pos hc]
      exact (List.dropWhile_suffix jsIsWs).trans (List.suffix_cons c rest)
    · rw [if_neg hc]

theorem stripBulletL_trimmed {t : List Char} (ht : WsTrimmed t) :
    WsTrimmed (stripBulletL t) := by
  match t with
  | [] => intro h; exact absurd rfl h
  | c :: rest =>
    simp only [stripBulletL]
    by_cases hc : c = '*'
    · rw [if_pos hc]
      intro h
      constructor
      · exact List.head_dropWhile_not jsIsWs rest h
      · have hsuf : rest.dropWhile jsIsWs <:+ rest := List.dropWhile_suffix jsIsWs
        have hrest : rest ≠ [] := List.IsSuffix.ne_nil hsuf h
        rw [List.IsSuffix.getLast hsuf h]
        have hlast := (ht (List.cons_ne_nil c rest)).2
        rwa [List.getLast_cons hrest] at hlast
    · rw [if_neg hc]
      exact ht

theorem infix_of_dropWhile {t l : List Char}
    (hh : ∀ hne : t ≠ [], jsIsWs (t.head hne) = false) (h : t <:+: l) :
    t <:+: l.dropWhile jsIsWs := by
  by_cases hne : t = []
  · subst hne; exact List.nil_infix
  · obtain ⟨a, b, rfl⟩ := h
    rw [List.append_assoc, List.dropWhile_append]
    split
    · match t, hne with
      | c :: t', _ =>
        rw [List.cons_append, List.dropWhile_cons_of_neg]
        · exact ⟨[], b, by simp⟩
        · simpa using hh (List.cons_ne_nil c t')
    · rw [← List.append_assoc]
      exact List.infix_append _ _ _

theorem infix_of_rdropWhile {t l : List Char}
    (hl : ∀ hne : t ≠ [], jsIsWs (t.getLast hne) = false) (h : t <:+: l) :
    t <:+: l.rdropWhile jsIsWs := by
  by_cases hne : t = []
  · subst hne; exact List.nil_infix
  · have hrev : t.reverse <:+: l.reverse := List.IsInfix.reverse h
    have hhead : ∀ hne' : t.reverse ≠ [], jsIsWs (t.reverse.head hne') = false := by
      intro hne'
      rw [List.head_reverse]
      exact hl hne
    have hdrop := infix_of_dropWhile hhead hrev
    have := List.IsInfix.reverse hdrop
    rwa [List.reverse_reverse] at this
    -- goal is now `t <:+: (l.reverse.dropWhile jsIsWs).reverse = l.rdropWhile jsIsWs`

theorem infix_of_trimL {t l : List Char} (ht : WsTrimmed t) (h : t <:+: l) :
    t <:+: trimL l := by
  unfold trimL
  exact infix_of_rdropWhile (fun hne => (ht hne).2)
    (infix_of_dropWhile (fun hne => (ht hne).1) h)

theorem appendDupCheck_decide (old v : String) :
    appendDupCheck old v =
      decide (stripBulletL (trimL (lowerL (trimL v.data))) <:+:
        trimL (lowerL old.data)) := rfl

theorem appendOnce_of_dup {old v : String} (hd : appendDupCheck old v = true) :
    appendOnce old v = old := by
  unfold appendOnce mergeNewValue
  simp [hd]

theorem appendOnce_of_not_dup {old v : String} (hd : appendDupCheck old v = false) :
    appendOnce old v = if old = "" then jsTrim v else old ++ "\n" ++ jsTrim v := by
  unfold appendOnce mergeNewValue
  simp [hd]

/-- Core deduplication property: after one APPEND of `v`, the stored value
always contains the normalized candidate, so the duplicate check of a
second identical APPEND fires. -/
theorem appendDupCheck_appendOnce (old v : String) :
    appendDupCheck (appendOnce old v) v = true := by
  by_cases hd : appendDupCheck old v = true
  · rw [appendOnce_of_dup hd]
    exact hd
  · have hd' : appendDupCheck old v = false := by simpa using hd
    rw [appendOnce_of_not_dup hd', appendDupCheck_decide]
    have hneedle : WsTrimmed (stripBulletL (trimL (lowerL (trimL v.data)))) :=
      stripBulletL_trimmed (trimL_trimmed _)
    have h2 : stripBulletL (trimL (lowerL (trimL v.data))) <:+: lowerL (trimL v.data) :=
      (suffixWiden (stripBulletL_suffix_self _)).trans (trimL_suffix_widen _)
    by_cases ho : old = ""
    · rw [if_pos ho]
      exact decide_eq_true (infix_of_trimL hneedle h2)
    · rw [if_neg ho]
      have h3 : lowerL (trimL v.data) <:+: lowerL (old ++ "\n" ++ jsTrim v).data :=
        ⟨lowerL old.data ++ lowerL ['\n'], [],
          by simp [lowerL, jsTrim, String.data_append]⟩
      exact decide_eq_true (infix_of_trimL hneedle (h2.trans h3))

/-- Updating the first field with a given id commutes with looking it up. -/
theorem findField_setFirstValue (fields : List Field) (fid v : String) :
    findField (setFirstValue fields fid v) fid =
      (findField fields fid).map (fun f => { f with currentValue := v }) := by
  induction fields with
  | nil => rfl
  | cons f rest ih =>
    unfold setFirstValue findField
    by_cases hid : (f.id == fid) = true
    · rw [if_pos hid]
      have e1 : List.find? (fun g : Field => g.id == fid)
          ({ f with currentValue := v } :: rest) =
            some { f with currentValue := v } := List.find?_cons_of_pos _ hid
      have e2 : List.find? (fun g : Field => g.id == fid) (f :: rest) = some f :=
        List.find?_cons_of_pos _ hid
      rw [e1, e2]
      rfl
    · rw [if_neg hid]
      have e1 : List.find? (fun g : Field => g.id == fid)
          (f :: setFirstValue rest fid v) =
            List.find? (fun g : Field => g.id == fid) (setFirstValue rest fid v) :=
        List.find?_cons_of_neg _ hid
      have e2 : List.find? (fun g : Field => g.id == fid) (f :: rest) =
          List.find? (fun g : Field => g.id == fid) rest :=
        List.find?_cons_of_neg _ hid
      rw [e1, e2]
      exact ih

/-- The value written by a non-duplicate APPEND differs from the old one. -/
theorem append_value_ne {old v : String} (hd : appendDupCheck old v = false) :
    (if old = "" then jsTrim v else old ++ "\n" ++ jsTrim v) ≠ old := by
  by_cases ho : old = ""
  · rw [if_pos ho, ho]
    intro hcontra
    have hdata : trimL v.data = [] := congrArg String.data hcontra
    have : appendDupCheck old v = true := by
      rw [appendDupCheck_decide, hdata]
      have h1 : lowerL ([] : List Char) = [] := rfl
      have h2 : trimL ([] : List Char) = [] := by simp [trimL]
      rw [h1, h2]
      exact decide_eq_true (by simp [stripBulletL])
    rw [this] at hd
    exact Bool.noConfusion hd
  · rw [if_neg ho]
    intro hcontra
    have hd2 := congrArg String.data hcontra
    simp only [String.data_append] at hd2
    have hlen := congrArg List.length hd2
    have hnl : ("\n" : String).data.length = 1 := rfl
    simp only [List.length_append, hnl] at hlen
    omega

/-- Characterization of `applyUpdate` on an APPEND update. -/
theorem applyUpdate_append (fields : List Field) (c : Bool) (fid v : String) :
    applyUpdate (fields, c) ⟨fid, UpdateAction.APPEND, v⟩ =
      match findField fields fid with
      | none => (fields, c)
      | some f =>
        if appendDupCheck f.currentValue v then (fields, c)
        else (setFirstValue fields fid (appendOnce f.currentValue v), true) := by
  unfold applyUpdate
  cases hf : findField fields fid with
  | none => rfl
  | some f =>
    by_cases hd : appendDupCheck f.currentValue v = true
    · simp [mergeNewValue, hd]
    · have hd' : appendDupCheck f.currentValue v = false := by simpa using hd
      simp only [mergeNewValue, hd', Bool.false_eq_true, if_false]
      rw [appendOnce_of_not_dup hd']
      simp only [if_neg (append_value_ne hd')]

/-- Claim C3: for every field state and every APPEND update, applying the
same APPEND twice yields exactly one stored copy: after one application
the stored value contains the normalized candidate as a substring, so
the second application is skipped by the duplicate check and leaves the
field state unchanged (idempotent dedup). -/
theorem claim_C3 (fields : List Field) (c : Bool) (fid v : String) :
    ((findField (applyUpdate (fields, c) ⟨fid, UpdateAction.APPEND, v⟩).1 fid).all
        (fun f => appendDupCheck f.currentValue v) = true)
    ∧ applyUpdate (applyUpdate (fields, c) ⟨fid, UpdateAction.APPEND, v⟩)
        ⟨fid, UpdateAction.APPEND, v⟩
      = applyUpdate (fields, c) ⟨fid, UpdateAction.APPEND, v⟩ := by
  cases hf : findField fields fid with
  | none =>
    have h1 : applyUpdate (fields, c) ⟨fid, UpdateAction.APPEND, v⟩ = (fields, c) := by
      rw [applyUpdate_append, hf]
    refine ⟨?_, ?_⟩
    · rw [h1, hf]
      rfl
    · rw [h1]
      exact h1
  | some f =>
    have h1 : applyUpdate (fields, c) ⟨fid, UpdateAction.APPEND, v⟩ =
        (if appendDupCheck f.currentValue v then (fields, c)
         else (setFirstValue fields fid (appendOnce f.currentValue v), true)) := by
      rw [applyUpdate_append, hf]
    by_cases hd : appendDupCheck f.currentValue v = true
    · rw [if_pos hd] at h1
      refine ⟨?_, ?_⟩
      · rw [h1, hf]
        simpa using hd
      · rw [h1]
        exact h1
    · have hd' : appendDupCheck f.currentValue v = false := by simpa using hd
      simp only [hd', Bool.false_eq_true, if_false] at h1
      refine ⟨?_, ?_⟩
      · rw [h1]
        rw [findField_setFirstValue, hf]
        simpa using appendDupCheck_appendOnce f.currentValue v
      · rw [h1, applyUpdate_append, findField_setFirstValue, hf]
        simp [appendDupCheck_appendOnce]

theorem recoverTemplate_buffer (s : SessionState) :
    (recoverTemplate s).slidingWindowTranscript = s.slidingWindowTranscript := by
  unfold recoverTemplate
  split <;> rfl

theorem recoverTemplate_isProcessing (s : SessionState) :
    (recoverTemplate s).isProcessing = s.isProcessing := by
  unfold recoverTemplate
  split <;> rfl

theorem tickCallDecision_some {s s2 : SessionState}
    (h : tickCallDecision s = some s2) :
    s2 = { recoverTemplate s with isProcessing := true } := by
  unfold tickCallDecision at h
  dsimp only at h
  split at h
  · exact absurd h (Option.noConfusion)
  · split at h
    · exact absurd h (Option.noConfusion)
    · split at h
      · exact absurd h (Option.noConfusion)
      · exact (Option.some_inj.mp h).symm

/-- On every completed (non-throwing) generation call, the cursor is
advanced to the buffer length, whatever the parse outcome and whether or
not the safety timeout fired. -/
theorem completionPhase_completed_cursor (s2 : SessionState) (r : ParsedResult)
    (t : Bool) (msgs : List OutMsg) :
    (completionPhase s2 (GenOutcome.completed r) t msgs).1.processedTranscriptLength
      = strLength s2.slidingWindowTranscript := by
  cases t <;> cases r <;> unfold completionPhase <;> simp only [] <;> first
    | rfl
    | (split <;> rfl)

theorem heartbeatTick_some {s s2 : SessionState} (o : GenOutcome) (t : Bool)
    (hd : tickCallDecision s = some s2) :
    heartbeatTick s o t = completionPhase s2 o t [OutMsg.status true] := by
  unfold heartbeatTick
  rw [hd]

theorem heartbeatTick_none {s : SessionState} (o : GenOutcome) (t : Bool)
    (hd : tickCallDecision s = none) :
    heartbeatTick s o t = (recoverTemplate s, [], false) := by
  unfold heartbeatTick
  rw [hd]

/-- Claim C1: on every scheduler tick whose generation call completes
without a thrown error — including unparsable-response no-op ticks and
all-SKIP ticks — `processedTranscriptLength` is advanced to the
transcript buffer's length at call time. -/
theorem claim_C1 (s : SessionState) (r : ParsedResult) (t : Bool)
    (h : (heartbeatTick s (GenOutcome.completed r) t).2.2 = true) :
    (heartbeatTick s (GenOutcome.completed r) t).1.processedTranscriptLength
      = strLength s.slidingWindowTranscript := by
  cases hd : tickCallDecision s with
  | none =>
    rw [heartbeatTick_none _ _ hd] at h
    exact absurd h (by simp)
  | some s2 =>
    rw [heartbeatTick_some _ _ hd]
    have hs2 := tickCallDecision_some hd
    have hbuf : s2.slidingWindowTranscript = s.slidingWindowTranscript := by
      rw [hs2]
      exact recoverTemplate_buffer s
    rw [completionPhase_completed_cursor, hbuf]

/-- Witness for C1 at a concrete session state with an unparsable
(no-op) response. -/
theorem claim_C1_witness :
    (heartbeatTick
        ⟨none, [⟨"f1", "Topic", "ideas", ""⟩], ⟨[⟨"f1", "Topic", "ideas", ""⟩], ""⟩,
          "plenty of new words here", 0, true, 0, false⟩
        (GenOutcome.completed ParsedResult.noResult) false).2.2 = true
    ∧ (heartbeatTick
        ⟨none, [⟨"f1", "Topic", "ideas", ""⟩], ⟨[⟨"f1", "Topic", "ideas", ""⟩], ""⟩,
          "plenty of new words here", 0, true, 0, false⟩
        (GenOutcome.completed ParsedResult.noResult) false).1.processedTranscriptLength
      = strLength "plenty of new words here" :=
  ⟨by decide, claim_C1 _ ParsedResult.noResult false (by decide)⟩

/-- Claim C4: a scheduler tick that fires while `isProcessing` is set
performs no generation call, and whenever a call is issued the state at
call time has `isProcessing` set — at most one extraction call per
session is in flight at a time. -/
theorem claim_C4 (s : SessionState) :
    tickCallDecision { s with isProcessing := true } = none
    ∧ (tickCallDecision s).all (fun s2 => s2.isProcessing) = true
    ∧ (∀ (o : GenOutcome) (t : Bool),
        (heartbeatTick { s with isProcessing := true } o t).2.2 = false) := by
  have h1 : tickCallDecision { s with isProcessing := true } = none := by
    unfold tickCallDecision
    dsimp only
    split
    · rfl
    · split
      · rfl
      · have hp : (recoverTemplate { s with isProcessing := true }).isProcessing = true := by
          rw [recoverTemplate_isProcessing]
        rw [if_pos hp]
  refine ⟨h1, ?_, ?_⟩
  · cases hd : tickCallDecision s with
    | none => rfl
    | some s2 =>
      rw [tickCallDecision_some hd]
      rfl
  · intro o t
    rw [heartbeatTick_none o t h1]

/-- Characterization of `applyUpdate` on a REPLACE update. -/
theorem applyUpdate_replace (fields : List Field) (c : Bool) (fid v : String) :
    applyUpdate (fields, c) ⟨fid, UpdateAction.REPLACE, v⟩ =
      match findField fields fid with
      | none => (fields, c)
      | some f =>
        if f.currentValue = jsTrim v then (fields, c)
        else (setFirstValue fields fid (jsTrim v), true) := by
  unfold applyUpdate
  cases hf : findField fields fid with
  | none => rfl
  | some f =>
    by_cases he : f.currentValue = jsTrim v
    · simp [mergeNewValue, he]
    · simp only [mergeNewValue, if_neg he]
      rw [if_neg (fun hcontra => he hcontra.symm)]

/-- Claim C7: a REPLACE whose trimmed proposed value equals the field's
current value leaves the field unchanged and contributes no change
event — a tick consisting of only such an update emits no
`templateUpdate` message; when the trimmed value differs,
`currentValue` is set to the trimmed value. -/
theorem claim_C7 (fields : List Field) (c : Bool) (u : ExtractionUpdate) (f : Field)
    (hf : findField fields u.fieldId = some f)
    (ha : u.action = UpdateAction.REPLACE) :
    (jsTrim u.value = f.currentValue → applyUpdate (fields, c) u = (fields, c))
    ∧ (jsTrim u.value ≠ f.currentValue →
        applyUpdate (fields, c) u
          = (setFirstValue fields u.fieldId (jsTrim u.value), true))
    ∧ (∀ (s2 : SessionState) (t : Bool) (msgs : List OutMsg),
        s2.currentClientState.fields = fields →
        jsTrim u.value = f.currentValue →
        (completionPhase s2 (GenOutcome.completed (ParsedResult.updates [u])) t msgs).2.1
          = (if t then msgs ++ [OutMsg.status false] else msgs) ++ [OutMsg.status false]) := by
  obtain ⟨fid, act, v⟩ := u
  dsimp only at hf ha ⊢
  subst ha
  have h1 : ∀ c' : Bool, applyUpdate (fields, c') ⟨fid, UpdateAction.REPLACE, v⟩ =
      (if f.currentValue = jsTrim v then (fields, c')
       else (setFirstValue fields fid (jsTrim v), true)) := by
    intro c'
    rw [applyUpdate_replace, hf]
  refine ⟨?_, ?_, ?_⟩
  · intro he
    rw [h1 c, if_pos he.symm]
  · intro hne
    rw [h1 c, if_neg (fun hcontra => hne hcontra.symm)]
  · intro s2 t msgs hsf he
    have h2 : applyUpdate (s2.currentClientState.fields, false)
        ⟨fid, UpdateAction.REPLACE, v⟩ = (s2.currentClientState.fields, false) := by
      rw [hsf, h1 false, if_pos he.symm]
    cases t <;>
      simp only [completionPhase, List.filter, List.foldl] <;>
      rw [show ((⟨fid, UpdateAction.REPLACE, v⟩ : ExtractionUpdate).action
            == UpdateAction.SKIP) = false from rfl] <;>
      simp [h2]

/-- Witness for C7: a REPLACE of `" Bob "` onto current value `"Bob"`
is a no-op. -/
theorem claim_C7_witness :
    findField [⟨"f1", "Name", "h", "Bob"⟩] "f1" = some ⟨"f1", "Name", "h", "Bob"⟩
    ∧ jsTrim " Bob " = "Bob"
    ∧ applyUpdate ([⟨"f1", "Name", "h", "Bob"⟩], false)
        ⟨"f1", UpdateAction.REPLACE, " Bob "⟩
      = ([⟨"f1", "Name", "h", "Bob"⟩], false) :=
  ⟨by decide, by decide,
    (claim_C7 [⟨"f1", "Name", "h", "Bob"⟩] false
        ⟨"f1", UpdateAction.REPLACE, " Bob "⟩ ⟨"f1", "Name", "h", "Bob"⟩
        (by decide) rfl).1 (by decide)⟩

/-- Claim C8: a non-duplicate APPEND stores
`existingValue + "\n" + trimmedCandidate` when the existing value is
non-empty, and exactly the trimmed candidate when it is empty. -/
theorem claim_C8 (fields : List Field) (c : Bool) (u : ExtractionUpdate) (f : Field)
    (hf : findField fields u.fieldId = some f)
    (ha : u.action = UpdateAction.APPEND)
    (hd : appendDupCheck f.currentValue u.value = false) :
    applyUpdate (fields, c) u
      = (setFirstValue fields u.fieldId
          (if f.currentValue = "" then jsTrim u.value
           else f.currentValue ++ "\n" ++ jsTrim u.value), true) := by
  obtain ⟨fid, act, v⟩ := u
  dsimp only at hf ha hd ⊢
  subst ha
  have h1 : applyUpdate (fields, c) ⟨fid, UpdateAction.APPEND, v⟩ =
      (if appendDupCheck f.currentValue v then (fields, c)
       else (setFirstValue fields fid (appendOnce f.currentValue v), true)) := by
    rw [applyUpdate_append, hf]
  rw [h1, hd]
  rw [appendOnce_of_not_dup hd]
  rfl

/-- Witness for C8: APPEND of `"* new fact"` onto an empty field stores
exactly the trimmed candidate, with no leading newline. -/
theorem claim_C8_witness :
    findField [⟨"f1", "Facts", "h", ""⟩] "f1" = some ⟨"f1", "Facts", "h", ""⟩
    ∧ appendDupCheck "" "* new fact" = false
    ∧ applyUpdate ([⟨"f1", "Facts", "h", ""⟩], false)
        ⟨"f1", UpdateAction.APPEND, "* new fact"⟩
      = (setFirstValue [⟨"f1", "Facts", "h", ""⟩] "f1"
          (if ("" : String) = "" then jsTrim "* new fact"
           else "" ++ "\n" ++ jsTrim "* new fact"), true) :=
  ⟨by decide, by decide,
    claim_C8 [⟨"f1", "Facts", "h", ""⟩] false
      ⟨"f1", UpdateAction.APPEND, "* new fact"⟩ ⟨"f1", "Facts", "h", ""⟩
      (by decide) rfl (by decide)⟩

/-- Claim C2: when appending a finalized segment pushes the transcript
buffer past 50 000 characters, the text is replaced by its last 40 000
characters — a suffix of the pre-trim text — and the cursor is clamped
to `min(processedCursor, 40000)`, so
`0 ≤ processedCursor ≤ length(text) ≤ 50000` holds after the trim. -/
theorem claim_C2 (s : SessionState) (transcript : String) (speaker : Nat)
    (hne : transcript ≠ "")
    (hover : strLength (s.slidingWindowTranscript ++ " " ++
        ("[Speaker " ++ toString speaker ++ "] " ++ transcript)) > 50000) :
    (handleTranscriptEvent s transcript true speaker).1.slidingWindowTranscript
      = jsSliceLast (s.slidingWindowTranscript ++ " " ++
          ("[Speaker " ++ toString speaker ++ "] " ++ transcript)) 40000
    ∧ (handleTranscriptEvent s transcript true speaker).1.slidingWindowTranscript.data
        <:+ (s.slidingWindowTranscript ++ " " ++
          ("[Speaker " ++ toString speaker ++ "] " ++ transcript)).data
    ∧ strLength (handleTranscriptEvent s transcript true speaker).1.slidingWindowTranscript
        = 40000
    ∧ (handleTranscriptEvent s transcript true speaker).1.processedTranscriptLength
        = min s.processedTranscriptLength 40000
    ∧ (handleTranscriptEvent s transcript true speaker).1.processedTranscriptLength
        ≤ strLength (handleTranscriptEvent s transcript true speaker).1.slidingWindowTranscript
    ∧ strLength (handleTranscriptEvent s transcript true speaker).1.slidingWindowTranscript
        ≤ 50000 := by
  have hres : handleTranscriptEvent s transcript true speaker =
      ({ s with
           slidingWindowTranscript := jsSliceLast (s.slidingWindowTranscript ++ " " ++
             ("[Speaker " ++ toString speaker ++ "] " ++ transcript)) 40000,
           processedTranscriptLength :=
             if s.processedTranscriptLength > 40000 then 40000
             else s.processedTranscriptLength },
       [OutMsg.transcript ("[Speaker " ++ toString speaker ++ "] " ++ transcript) true]) := by
    unfold handleTranscriptEvent
    rw [if_pos ⟨hne, rfl⟩, if_pos hover]
  rw [hres]
  have hlen : strLength (jsSliceLast (s.slidingWindowTranscript ++ " " ++
      ("[Speaker " ++ toString speaker ++ "] " ++ transcript)) 40000) = 40000 := by
    simp only [strLength, jsSliceLast, List.length_drop]
    simp only [strLength] at hover
    omega
  have hsuffix : (jsSliceLast (s.slidingWindowTranscript ++ " " ++
      ("[Speaker " ++ toString speaker ++ "] " ++ transcript)) 40000).data
        <:+ (s.slidingWindowTranscript ++ " " ++
          ("[Speaker " ++ toString speaker ++ "] " ++ transcript)).data := by
    simp only [jsSliceLast]
    exact List.drop_suffix _ _
  refine ⟨rfl, hsuffix, hlen, ?_, ?_, ?_⟩
  · dsimp only
    split <;> omega
  · dsimp only
    rw [hlen]
    split <;> omega
  · rw [hlen]
    omega

/-- Witness for C2 at a 60 000-character buffer. -/
theorem claim_C2_witness :
    ("hello" : String) ≠ ""
    ∧ strLength (String.mk (List.replicate 60000 'a') ++ " " ++
        ("[Speaker " ++ toString 0 ++ "] " ++ "hello")) > 50000
    ∧ (handleTranscriptEvent
        ⟨none, [], ⟨[], ""⟩, String.mk (List.replicate 60000 'a'), 45000, false, 0, false⟩
        "hello" true 0).1.processedTranscriptLength
      = min 45000 40000 :=
  have hov : strLength (String.mk (List.replicate 60000 'a') ++ " " ++
      ("[Speaker " ++ toString 0 ++ "] " ++ "hello")) > 50000 := by
    simp only [strLength, String.data_append, List.length_append, List.length_replicate]
    omega
  ⟨by decide, hov,
    (claim_C2
      ⟨none, [], ⟨[], ""⟩, String.mk (List.replicate 60000 'a'), 45000, false, 0, false⟩
      "hello" 0 (by decide) hov).2.2.2.1⟩

/-- Counterexample to C5 as stated: a `contextUpdate` whose field list is
empty has an id set (∅) that differs from the previously active
template's id set ({"a"}), yet the cursor is not reset: it stays 7. -/
theorem claim_C5_counterexample :
    (SessionState.activeTemplate
        ⟨none, [⟨"a", "n", "h", ""⟩], ⟨[⟨"a", "n", "h", ""⟩], ""⟩, "buf", 7, false, 0, false⟩).map
      (fun f => f.id) = ["a"]
    ∧ ([] : List Field).map (fun f => f.id) = []
    ∧ (handleContextUpdate
        ⟨none, [⟨"a", "n", "h", ""⟩], ⟨[⟨"a", "n", "h", ""⟩], ""⟩, "buf", 7, false, 0, false⟩
        [] "notes").processedTranscriptLength = 7 := by
  refine ⟨rfl, rfl, ?_⟩
  decide

/-- Claim C5 as amended: on a `contextUpdate` the client state is
replaced; when the field list is non-empty, the cursor is reset to 0
exactly when the sorted comma-joined id string of the new fields differs
from that of the previously active template, and the template is
replaced; when the field list is empty (or the joined id strings agree)
the cursor is unchanged. -/
theorem claim_C5_amended (s : SessionState) (fields : List Field) (userNotes : String) :
    (handleContextUpdate s fields userNotes).processedTranscriptLength
      = (if fields ≠ [] ∧ sortedIdsJoin s.activeTemplate ≠ sortedIdsJoin fields then 0
         else s.processedTranscriptLength)
    ∧ (handleContextUpdate s fields userNotes).currentClientState = ⟨fields, userNotes⟩
    ∧ (handleContextUpdate s fields userNotes).activeTemplate
      = (if fields = [] then s.activeTemplate else fields) := by
  unfold handleContextUpdate
  by_cases hf : fields = []
  · simp [hf]
  · by_cases hids : sortedIdsJoin s.activeTemplate = sortedIdsJoin fields
    · simp [hf, hids]
    · simp [hf, hids]

/-- Witness for C5 (amended): the spec scenario — template ids `a,b`,
context sync to `a,c` — resets the cursor to 0. -/
theorem claim_C5_witness :
    (handleContextUpdate
        ⟨none, [⟨"a", "n", "h", ""⟩, ⟨"b", "n", "h", ""⟩],
          ⟨[⟨"a", "n", "h", ""⟩, ⟨"b", "n", "h", ""⟩], ""⟩, "buf", 7, false, 0, false⟩
        [⟨"a", "n", "h", ""⟩, ⟨"c", "n", "h", ""⟩] "notes").processedTranscriptLength
      = (if ([⟨"a", "n", "h", ""⟩, ⟨"c", "n", "h", ""⟩] : List Field) ≠ []
            ∧ sortedIdsJoin [⟨"a", "n", "h", ""⟩, ⟨"b", "n", "h", ""⟩]
              ≠ sortedIdsJoin [⟨"a", "n", "h", ""⟩, ⟨"c", "n", "h", ""⟩]
         then 0 else 7) :=
  (claim_C5_amended
    ⟨none, [⟨"a", "n", "h", ""⟩, ⟨"b", "n", "h", ""⟩],
      ⟨[⟨"a", "n", "h", ""⟩, ⟨"b", "n", "h", ""⟩], ""⟩, "buf", 7, false, 0, false⟩
    [⟨"a", "n", "h", ""⟩, ⟨"c", "n", "h", ""⟩] "notes").1

/-- Claim C10: the legacy `updateTemplate:` message never touches the
cursor, preserves all existing field values, and seeds empty values
only when the client state previously had no fields. -/
theorem claim_C10 (s : SessionState) (tpl : List Field) :
    (handleUpdateTemplate s tpl).processedTranscriptLength = s.processedTranscriptLength
    ∧ (handleUpdateTemplate s tpl).currentClientState.fields
      = (if s.currentClientState.fields = []
         then tpl.map (fun f => { f with currentValue := "" })
         else s.currentClientState.fields)
    ∧ (handleUpdateTemplate s tpl).currentClientState.userNotes
      = s.currentClientState.userNotes
    ∧ (handleUpdateTemplate s tpl).activeTemplate = tpl := by
  unfold handleUpdateTemplate
  by_cases h : s.currentClientState.fields = [] <;> simp [h]

/-- Claim C9: on every inbound audio frame, if the session age exceeds
55 minutes or no upstream connection exists, any existing connection is
finished, a new one is opened with the same configuration (linear16,
16 kHz, en-US, diarization, smart formatting), and the timer is reset —
the setup action preceding any forwarding of the current frame;
otherwise the connection and timer are unchanged. -/
theorem claim_C9 (s : SessionState) (now newReadyState : Nat) :
    if 55 * 60000 < now - s.connectionStartTime ∨ s.dgConnection = none then
      (handleAudioFrame s now newReadyState).1.dgConnection
          = some ⟨deepgramLiveConfig, newReadyState⟩
      ∧ (handleAudioFrame s now newReadyState).1.connectionStartTime = now
      ∧ (handleAudioFrame s now newReadyState).2
          = (match s.dgConnection with
             | some _ => [DeepgramAction.finish]
             | none => []) ++ DeepgramAction.setup deepgramLiveConfig ::
              (if newReadyState = 1 then [DeepgramAction.sendAudio] else [])
      ∧ deepgramLiveConfig.encoding = "linear16"
      ∧ deepgramLiveConfig.sample_rate = 16000
      ∧ deepgramLiveConfig.language = "en-US"
      ∧ deepgramLiveConfig.diarize = true
      ∧ deepgramLiveConfig.smart_format = true
    else
      (handleAudioFrame s now newReadyState).1 = s
      ∧ (handleAudioFrame s now newReadyState).2
          = (match s.dgConnection with
             | some c => if c.readyState = 1 then [DeepgramAction.sendAudio] else []
             | none => []) := by
  by_cases hc : 55 * 60000 < now - s.connectionStartTime ∨ s.dgConnection = none
  · rw [if_pos hc]
    unfold handleAudioFrame
    rw [if_pos hc]
    exact ⟨rfl, rfl, rfl, rfl, rfl, rfl, rfl, rfl⟩
  · rw [if_neg hc]
    unfold handleAudioFrame
    rw [if_neg hc]
    exact ⟨rfl, rfl⟩

/-- Counterexample to C6 as stated: with the safety timeout fired
(`timedOut = true`, idle status emitted right after the busy status),
a late APPEND result is still applied to the field state and a
`templateUpdate` for it is still sent — the late result is neither
discarded nor checked against session validity. -/
theorem claim_C6_counterexample :
    (heartbeatTick
        ⟨none, [⟨"f1", "Name", "the name", ""⟩], ⟨[⟨"f1", "Name", "the name", ""⟩], ""⟩,
          "hello world here", 0, true, 0, false⟩
        (GenOutcome.completed (ParsedResult.updates
          [⟨"f1", UpdateAction.APPEND, "* fact"⟩])) true).1.currentClientState.fields
      = [⟨"f1", "Name", "the name", "* fact"⟩]
    ∧ (heartbeatTick
        ⟨none, [⟨"f1", "Name", "the name", ""⟩], ⟨[⟨"f1", "Name", "the name", ""⟩], ""⟩,
          "hello world here", 0, true, 0, false⟩
        (GenOutcome.completed (ParsedResult.updates
          [⟨"f1", UpdateAction.APPEND, "* fact"⟩])) true).2.1
      = [OutMsg.status true, OutMsg.status false,
         OutMsg.templateUpdate [("f1", "* fact")], OutMsg.status false] := by
  refine ⟨?_, ?_⟩ <;> decide

/-- Claim C6 as amended: when the generation call outlives the 15-second
safety timeout, the in-flight flag is force-cleared and an idle status
is emitted immediately; however a late result is not discarded — the
session ends in exactly the state it would have reached had the call
been on time (updates applied, cursor advanced). -/
theorem claim_C6_amended (s2 : SessionState) (o : GenOutcome) (msgs : List OutMsg) :
    (completionPhase s2 o true msgs).1 = (completionPhase s2 o false msgs).1
    ∧ (completionPhase s2 o true msgs).1.isProcessing = false
    ∧ ∃ rest, (completionPhase s2 o true msgs).2.1
        = msgs ++ OutMsg.status false :: rest := by
  cases o with
  | thrown m =>
    refine ⟨rfl, rfl, ⟨[OutMsg.error m, OutMsg.status false], ?_⟩⟩
    show (msgs ++ [OutMsg.status false]) ++ [OutMsg.error m, OutMsg.status false]
        = msgs ++ OutMsg.status false :: [OutMsg.error m, OutMsg.status false]
    simp
  | completed r =>
    cases r with
    | noResult =>
      refine ⟨rfl, rfl, ⟨[OutMsg.status false], ?_⟩⟩
      show (msgs ++ [OutMsg.status false]) ++ [OutMsg.status false]
          = msgs ++ OutMsg.status false :: [OutMsg.status false]
      simp
    | updates us =>
      unfold completionPhase
      dsimp only
      by_cases hl : us.filter (fun u => !(u.action == UpdateAction.SKIP)) = []
      · rw [if_pos hl, if_pos hl]
        refine ⟨rfl, rfl, ⟨[OutMsg.status false], ?_⟩⟩
        simp
      · rw [if_neg hl, if_neg hl]
        refine ⟨rfl, rfl, ?_⟩
        refine ⟨(if ((us.filter (fun u => !(u.action == UpdateAction.SKIP))).foldl
            applyUpdate (s2.currentClientState.fields, false)).2
              then [OutMsg.templateUpdate (flatUpdate
                ((us.filter (fun u => !(u.action == UpdateAction.SKIP))).foldl
                  applyUpdate (s2.currentClientState.fields, false)).1)]
              else []) ++ [OutMsg.status false], ?_⟩
        simp

end VoiceAssistant
